import Mathlib

/-!
Shallow embedding of the probing core of `pingx` (a multi-protocol ping
utility written in Rust) and proofs about it.

Conventions used throughout:
* Machine integers (`u8`, `u16`, `u32`, `u64`, `usize`) are embedded as `Nat`;
  wrapping arithmetic is made explicit with `% 2^w` exactly where the Rust
  code wraps.  A value of type `u16` is a `Nat` known (or hypothesised) to be
  `< 65536`.
* Byte buffers (`Vec<u8>`, `&[u8]`) are `List Nat`, each element a byte value.
* `std::time::Instant` is an abstract monotone clock embedded as `Nat`
  (an instant on a discrete time line); `Duration` is a `Nat` as well.
  `Instant::duration_since` saturates at zero, which is exactly `Nat`
  subtraction.
* Fallible functions (`anyhow::Result`) return `Except String _`.
-/

/-! ## ICMP packet codec — `src/pinger/icmp_packet.rs` -/

/-- `IcmpType::EchoReply as u8` (icmp_packet.rs line 7). -/
def IcmpType.echoReply : Nat := 0

/-- `IcmpType::EchoRequest as u8` (icmp_packet.rs line 8). -/
def IcmpType.echoRequest : Nat := 8

/-- `IcmpType::EchoReplyV6 as u8` (icmp_packet.rs line 10). -/
def IcmpType.echoReplyV6 : Nat := 129

/-- `IcmpType::EchoRequestV6 as u8` (icmp_packet.rs line 11). -/
def IcmpType.echoRequestV6 : Nat := 128

/-- `struct IcmpPacket` (icmp_packet.rs lines 14-23).  The `u8`/`u16` fields
are embedded as `Nat`. -/
structure IcmpPacket where
  message_type : Nat
  code : Nat
  checksum : Nat
  identifier : Nat
  sequence : Nat
  payload : List Nat
deriving Repr, DecidableEq

/-- `IcmpPacket::new_request` (icmp_packet.rs lines 26-36). -/
def IcmpPacket.new_request (v6 : Bool) (identifier sequence : Nat)
    (payload : List Nat) : IcmpPacket :=
  { message_type := if v6 then IcmpType.echoRequestV6 else IcmpType.echoRequest
    code := 0
    checksum := 0
    identifier := identifier
    sequence := sequence
    payload := payload }

/-- One step of the summation loop of `calculate_checksum`
(icmp_packet.rs lines 84-93), expressed as recursion over the byte list:
pairs of bytes are combined big-endian (`u16::from_be_bytes`) and added with
`u32::wrapping_add` (explicit `% 2^32`); a final odd byte contributes
`byte << 8`. -/
def checksumSumLoop : List Nat → Nat → Nat
  | b1 :: b2 :: rest, sum => checksumSumLoop rest ((sum + (b1 * 256 + b2)) % 4294967296)
  | [b], sum => (sum + b * 256) % 4294967296
  | [], sum => sum

/-- The carry-folding loop of `calculate_checksum` (icmp_packet.rs lines
95-97): `while (sum >> 16) != 0 { sum = (sum & 0xFFFF) + (sum >> 16) }`.
`sum >> 16` is `sum / 65536` and `sum & 0xFFFF` is `sum % 65536`.
The `fuel` argument bounds the number of iterations so the function is
structurally recursive; each iteration of the source loop strictly decreases
`sum`, so `fuel := sum` (see `checksumFold`) always suffices. -/
def checksumFoldAux : Nat → Nat → Nat
  | 0, sum => sum
  | fuel + 1, sum =>
      if sum / 65536 ≠ 0 then checksumFoldAux fuel (sum % 65536 + sum / 65536) else sum

/-- The carry-folding loop of `calculate_checksum`, run to completion. -/
def checksumFold (sum : Nat) : Nat := checksumFoldAux sum sum

/-- `calculate_checksum` (icmp_packet.rs lines 83-100): sum the 16-bit
big-endian words with a wrapping `u32` accumulator, fold the carries, then
return `!sum as u16`, i.e. the low 16 bits of the bitwise complement of the
32-bit accumulator. -/
def calculate_checksum (data : List Nat) : Nat :=
  (4294967295 - checksumFold (checksumSumLoop data 0)) % 65536

/-- `IcmpPacket::encode` (icmp_packet.rs lines 38-58).  The buffer is the
8-byte header (checksum placeholder zero, `identifier` and `sequence` written
big-endian via `put_u16`) followed by the payload; for an IPv4 Echo request
(`message_type == 8`) bytes 2 and 3 are then overwritten with the computed
checksum (`checksum >> 8` and `checksum & 0xff`); for IPv6 the placeholder is
left as is (kernel fills it). -/
def IcmpPacket.encode (p : IcmpPacket) : List Nat :=
  let buf : List Nat :=
    [p.message_type, p.code, 0, 0,
     p.identifier / 256, p.identifier % 256,
     p.sequence / 256, p.sequence % 256] ++ p.payload
  if p.message_type = IcmpType.echoRequest then
    let checksum := calculate_checksum buf
    (buf.set 2 (checksum / 256)).set 3 (checksum % 256)
  else
    buf

/-- `IcmpPacket::decode` (icmp_packet.rs lines 60-81): fail on fewer than 8
bytes, otherwise read the five header fields from the first 8 bytes
(`get_u16` is big-endian) and take the rest as payload.  The checksum is read
but not validated. -/
def IcmpPacket.decode (data : List Nat) : Except String IcmpPacket :=
  if data.length < 8 then
    Except.error "Packet too short"
  else
    Except.ok
      { message_type := data.getD 0 0
        code := data.getD 1 0
        checksum := data.getD 2 0 * 256 + data.getD 3 0
        identifier := data.getD 4 0 * 256 + data.getD 5 0
        sequence := data.getD 6 0 * 256 + data.getD 7 0
        payload := data.drop 8 }

/-- The plain (unwrapped) sum of the big-endian 16-bit words of a byte
sequence, an odd trailing byte padded with a zero byte.  This is the
mathematical quantity the claim about the Internet checksum speaks of. -/
def wordSum : List Nat → Nat
  | b1 :: b2 :: rest => b1 * 256 + b2 + wordSum rest
  | [b] => b * 256
  | [] => 0

/-- The one's-complement 16-bit sum of all 16-bit words of a byte sequence
(the claim's wording): the plain word sum with end-around carry folded in. -/
def onesComplementSum (data : List Nat) : Nat :=
  checksumFold (wordSum data)


/-! ## IP addresses

`std::net::IpAddr` is abstracted to its family tag plus an opaque numeric
address; only the family is ever inspected by the embedded code. -/

/-- `std::net::IpAddr`. -/
inductive IpAddr where
  | v4 (a : Nat)
  | v6 (a : Nat)
deriving Repr, DecidableEq

/-- `IpAddr::is_ipv6`. -/
def IpAddr.is_ipv6 : IpAddr → Bool
  | .v4 _ => false
  | .v6 _ => true

/-! ## Happy Eyeballs address interleaving — `src/happy_eyeballs.rs` -/

/-- The drain loop of `interleave_addrs` (happy_eyeballs.rs lines 119-131):
each iteration takes `a = v6_iter.next()` and `b = v4_iter.next()`, breaks when
both are exhausted, and pushes whichever are present, the IPv6 one first.  Once
the IPv6 iterator is exhausted, the remaining iterations push the IPv4
elements one per iteration in order, which appends that remainder unchanged
(first equation). -/
def interleaveLoop : List IpAddr → List IpAddr → List IpAddr
  | [], v4s => v4s
  | a :: v6s, [] => a :: interleaveLoop v6s []
  | a :: v6s, b :: v4s => a :: b :: interleaveLoop v6s v4s

/-- `interleave_addrs` (happy_eyeballs.rs lines 106-133): the `for` loop
partitions the input into the IPv6 and IPv4 sub-lists preserving order, then
the drain loop interleaves them. -/
def interleave_addrs (addrs : List IpAddr) : List IpAddr :=
  interleaveLoop (addrs.filter fun a => a.is_ipv6) (addrs.filter fun a => !a.is_ipv6)

/-- The specification's description of the interleave step, for comparison
with `interleave_addrs`: zip the two partitions taking one from each in turn
starting with IPv6, and append any leftover tail. -/
def specInterleave (v6s v4s : List IpAddr) : List IpAddr :=
  (((v6s.zip v4s).map fun p => [p.1, p.2]).flatten)
    ++ (v6s.drop v4s.length ++ v4s.drop v6s.length)

/-! ## Session data model — `src/session.rs` -/

/-- `ProbeStatus` (session.rs lines 18-22). -/
inductive ProbeStatus where
  | success
  | timeout
  | error (msg : String)
deriving Repr, DecidableEq

/-- `PingResult` (session.rs lines 24-33).  `seq` carries the scheduler's full
`u64` sequence number; `rtt` is a `Duration`. -/
structure PingResult where
  target : String
  target_addr : IpAddr
  seq : Nat
  bytes : Nat
  ttl : Option Nat
  rtt : Nat
  status : ProbeStatus
deriving Repr, DecidableEq

/-- `PingStats` (session.rs lines 35-43).  The source field names `_target`
and `_address` are written without the leading underscore. -/
structure PingStats where
  target : String
  address : IpAddr
  transmitted : Nat
  received : Nat
  start_time : Nat
  rtts : List Nat
deriving Repr, DecidableEq

/-- `PingStats::new` (session.rs lines 46-55); `now` stands for the
`Instant::now()` call. -/
def PingStats.new (target : String) (address : IpAddr) (now : Nat) : PingStats :=
  { target := target, address := address, transmitted := 0, received := 0,
    start_time := now, rtts := [] }

/-- `PingStats::update` (session.rs lines 57-63): `transmitted += 1` on every
result; on a `Success` result additionally `received += 1` and
`rtts.push(result.rtt)`. -/
def PingStats.update (s : PingStats) (result : PingResult) : PingStats :=
  let s1 := { s with transmitted := s.transmitted + 1 }
  match result.status with
  | ProbeStatus.success =>
      { s1 with received := s1.received + 1, rtts := s1.rtts ++ [result.rtt] }
  | _ => s1

/-! ## The ICMP pinger — `src/pinger/icmp/pinger.rs` and `icmp/client.rs` -/

/-- The identifier computation of `IcmpPinger::new` (icmp/pinger.rs line 32):
`(std::process::id() % u16::MAX as u32) as u16`.  `u16::MAX as u32` is
`65535`; the concluding `as u16` cast truncates mod `2^16`. -/
def icmpPingerId (pid : Nat) : Nat :=
  pid % 65535 % 65536

/-- `ReplyToken` (icmp/client.rs line 180): the probe identity
`(peer-ip, optional identifier, sequence)` keying the reply-dispatch table. -/
structure ReplyToken where
  host : IpAddr
  ident : Option Nat
  seq : Nat
deriving Repr, DecidableEq

/-- The fields of `IcmpPinger` (icmp/pinger.rs lines 13-21) that `ping`
reads (the channel and client handles are part of the run model instead). -/
structure IcmpPinger where
  target_name : String
  target : IpAddr
  id : Nat
  size : Nat
  timeout : Nat
deriving Repr, DecidableEq

/-- How the single-shot waiter registered by a probe resolves, abstracting the
concurrent receiver loop of `icmp/client.rs`: a matching reply is dispatched
at instant `ts` carrying the reply TTL; or the sender half is dropped at
instant `t` (client shutdown, surfacing as `Ok(Err(_))`); or nothing ever
resolves it. -/
inductive WaiterOutcome where
  | reply (ts : Nat) (ttl : Option Nat)
  | closed (t : Nat)
  | silent
deriving Repr, DecidableEq

/-- The environment of one `IcmpPinger::ping(seq)` call (icmp/pinger.rs lines
60-150): the socket variant (`get_type() == Type::DGRAM`), the outcome of
`send_to` (`none` = success), the instant at which `send_to` is invoked
(line 78) and the instant at which its `await` returns — the code reads the
clock only at the latter, line 92 — and how the waiter resolves. -/
structure PingEnv where
  dgram : Bool
  sendErr : Option String
  sendCallT : Nat
  sendRetT : Nat
  waiter : WaiterOutcome
deriving Repr, DecidableEq

/-- The observable actions of one `ping` call, in program order: dispatch-table
registration / removal (`client.register` / `client.unregister`), the hand-off
of the encoded packet to `send_to`, and the result sent on the sink. -/
inductive PingEvent where
  | register (tok : ReplyToken)
  | sendPacket (bytes : List Nat)
  | unregister (tok : ReplyToken)
  | emit (res : PingResult)
deriving Repr, DecidableEq

/-- The probe identity `ping` uses for `register`/`unregister` (icmp/pinger.rs
lines 61-72): the identifier is omitted for a DGRAM socket (the kernel owns it
there), and the sequence is `seq as u16`, i.e. `seq % 2^16`. -/
def probeToken (p : IcmpPinger) (dgram : Bool) (seq : Nat) : ReplyToken :=
  { host := p.target, ident := if dgram then none else some p.id, seq := seq % 65536 }

/-- `IcmpPinger::ping(seq)` (icmp/pinger.rs lines 60-150) as the trace of its
observable actions, with time idealised: the `tokio::time::timeout(timeout, rx)`
window opens at `start = env.sendRetT` (the `Instant::now()` of line 92, taken
after `send_to` returns), and the waiter wins the race exactly when it
resolves no later than `start + timeout`.  On success the reported RTT is
`reply.timestamp.duration_since(start)`, which saturates at zero when the
reply was timestamped before `start`; `Nat` subtraction does the same.  The
probe sequence everywhere except the emitted result is `seq as u16`. -/
def pingModel (p : IcmpPinger) (env : PingEnv) (seq : Nat) : List PingEvent :=
  let seq16 := seq % 65536
  let payload : List Nat := List.replicate p.size 0
  let identKey : Option Nat := if env.dgram then none else some p.id
  let tok : ReplyToken := { host := p.target, ident := identKey, seq := seq16 }
  let encoded := (IcmpPacket.new_request p.target.is_ipv6 p.id seq16 payload).encode
  match env.sendErr with
  | some e =>
      [PingEvent.register tok, PingEvent.sendPacket encoded, PingEvent.unregister tok,
       PingEvent.emit { target := p.target_name, target_addr := p.target, seq := seq,
                        bytes := 0, ttl := none, rtt := 0, status := ProbeStatus.error e }]
  | none =>
      let start := env.sendRetT
      let timeoutTrace :=
        [PingEvent.register tok, PingEvent.sendPacket encoded, PingEvent.unregister tok,
         PingEvent.emit { target := p.target_name, target_addr := p.target, seq := seq,
                          bytes := 0, ttl := none, rtt := 0, status := ProbeStatus.timeout }]
      match env.waiter with
      | WaiterOutcome.reply ts ttl =>
          if ts ≤ start + p.timeout then
            [PingEvent.register tok, PingEvent.sendPacket encoded,
             PingEvent.emit { target := p.target_name, target_addr := p.target, seq := seq,
                              bytes := p.size, ttl := ttl, rtt := ts - start,
                              status := ProbeStatus.success }]
          else timeoutTrace
      | WaiterOutcome.closed t =>
          if t ≤ start + p.timeout then
            [PingEvent.register tok, PingEvent.sendPacket encoded,
             PingEvent.emit { target := p.target_name, target_addr := p.target, seq := seq,
                              bytes := 0, ttl := none, rtt := 0,
                              status := ProbeStatus.error "Receiver closed" }]
          else timeoutTrace
      | WaiterOutcome.silent => timeoutTrace

/-- The results a trace sends on the sink. -/
def emitted (tr : List PingEvent) : List PingResult :=
  tr.filterMap fun e =>
    match e with
    | PingEvent.emit r => some r
    | _ => none

/-- The effect of one trace event on the reply-dispatch table
(`ReplyMap.new_waiter` inserts, `ReplyMap.remove` removes,
icmp/client.rs lines 194-213); other events leave the table alone. -/
def applyEvent (m : List ReplyToken) : PingEvent → List ReplyToken
  | PingEvent.register tok => tok :: m
  | PingEvent.unregister tok => m.erase tok
  | _ => m

/-- A trace's cumulative effect on the reply-dispatch table. -/
def applyTrace (m : List ReplyToken) (tr : List PingEvent) : List ReplyToken :=
  tr.foldl applyEvent m

/-! ## Summary rendering — `src/session.rs` lines 361-456 -/

/-- One key/value cell of the summary table (session.rs lines 459-462). -/
structure Cell where
  key : String
  val : String
deriving Repr, DecidableEq

/-- The 3×3 summary grid (session.rs lines 464-466). -/
structure TableData where
  rows : List (List Cell)
deriving Repr, DecidableEq

/-- `Session::prepare_table_data` (session.rs lines 361-418) at the level of
detail the summary-format claims need: the 3×3 grid of labelled cells.  The
strings produced by `f64` formatting — `min`/`max`/`avg`/`mdev`/`jitter`
(`{:.3} ms`, or `-` when no reply arrived) and the loss percentage
(`{:.0} %`) — are taken as opaque inputs because their computation is
floating-point; `transmitted`, `received` (`format!("{}", _)`) and the
`time` cell (`format!("{} ms", total_time)`, an integer millisecond count)
are formatted exactly as the source formats them. -/
def prepare_table_data (transmitted received total_time : Nat)
    (lossS minS maxS avgS mdevS jitterS : String) : TableData :=
  { rows := [
      [{ key := "send:", val := toString transmitted },
       { key := "min:", val := minS },
       { key := "time:", val := toString total_time ++ " ms" }],
      [{ key := "recv:", val := toString received },
       { key := "max:", val := maxS },
       { key := "jitter:", val := jitterS }],
      [{ key := "loss:", val := lossS },
       { key := "avg:", val := avgS },
       { key := "mdev:", val := mdevS }]] }

/-- Rust right-alignment `format!("{:>w$}", s)`: left-pad with spaces to
width `w`. -/
def padLeft (s : String) (w : Nat) : String :=
  String.mk (List.replicate (w - s.length) ' ') ++ s

/-- One formatted cell, `format!("{:>kw$} {:>vw$}", cell.key, cell.val)`
(session.rs line 442). -/
def cellStr (c : Cell) (kw vw : Nat) : String :=
  padLeft c.key kw ++ " " ++ padLeft c.val vw

/-- One rendered table row (session.rs lines 437-453): the three cells joined
by the separator `" | "` (pushed after every column but the last). -/
def rowLine (row : List Cell) (kws vws : List Nat) : String :=
  String.intercalate " | "
    ((row.zip (kws.zip vws)).map fun p => cellStr p.1 p.2.1 p.2.2)

/-- `Session::render_table` (session.rs lines 420-456) as the list of printed
lines.  The `colored` styling (`.bold()`, `.blue()`) only wraps text in
terminal escape sequences and is abstracted away; the centering arithmetic and
all of the text are the source's.  `title_clean` (line 428) is the uncolored
header text; the leading newline of the title `println!` (line 435) appears as
an initial empty line. -/
def render_table (target : String) (table : TableData) (kws vws : List Nat) :
    List String :=
  let colWidths := (kws.zip vws).map fun p => p.1 + 1 + p.2
  let totalWidth := colWidths.sum + 3 * 2
  let titleClean := "=== " ++ target ++ " ping statistics ==="
  let padding :=
    if totalWidth > titleClean.length then (totalWidth - titleClean.length) / 2 else 0
  "" :: (String.mk (List.replicate padding ' ') ++ titleClean)
    :: table.rows.map fun row => rowLine row kws vws

/-- The summary-block header the specification describes:
`--- <target> ping statistics ---`. -/
def specSummaryHeader (target : String) : String :=
  "--- " ++ target ++ " ping statistics ---"

/-! ### Lemmas about the checksum loops -/

theorem checksumFoldAux_lt (fuel s : Nat) (h : s ≤ fuel) :
    checksumFoldAux fuel s < 65536 := by
  induction fuel generalizing s with
  | zero => simp [checksumFoldAux]; omega
  | succ n ih =>
      rw [checksumFoldAux]
      by_cases hz : s / 65536 ≠ 0
      · rw [if_pos hz]
        exact ih _ (by omega)
      · rw [if_neg hz]
        omega

theorem checksumFoldAux_le (fuel s : Nat) : checksumFoldAux fuel s ≤ s := by
  induction fuel generalizing s with
  | zero => simp [checksumFoldAux]
  | succ n ih =>
      rw [checksumFoldAux]
      by_cases hz : s / 65536 ≠ 0
      · rw [if_pos hz]
        have := ih (s % 65536 + s / 65536)
        omega
      · rw [if_neg hz]

theorem checksumFoldAux_mod (fuel s : Nat) :
    checksumFoldAux fuel s % 65535 = s % 65535 := by
  induction fuel generalizing s with
  | zero => simp [checksumFoldAux]
  | succ n ih =>
      rw [checksumFoldAux]
      by_cases hz : s / 65536 ≠ 0
      · rw [if_pos hz]
        rw [ih]
        omega
      · rw [if_neg hz]

theorem checksumFoldAux_eq_zero (fuel s : Nat) (h : checksumFoldAux fuel s = 0) :
    s = 0 := by
  induction fuel generalizing s with
  | zero => simpa [checksumFoldAux] using h
  | succ n ih =>
      rw [checksumFoldAux] at h
      by_cases hz : s / 65536 ≠ 0
      · rw [if_pos hz] at h
        have := ih _ h
        omega
      · rw [if_neg hz] at h
        exact h

theorem checksumFold_lt (s : Nat) : checksumFold s < 65536 :=
  checksumFoldAux_lt s s le_rfl

theorem checksumFold_le (s : Nat) : checksumFold s ≤ s :=
  checksumFoldAux_le s s

theorem checksumFold_mod (s : Nat) : checksumFold s % 65535 = s % 65535 :=
  checksumFoldAux_mod s s

theorem checksumFold_eq_zero (s : Nat) (h : checksumFold s = 0) : s = 0 :=
  checksumFoldAux_eq_zero s s h

/-- If the plain word sum never reaches `2^32`, the wrapping accumulator of
the source code computes it exactly. -/
theorem checksumSumLoop_eq : ∀ (data : List Nat) (s : Nat),
    s + wordSum data < 4294967296 → checksumSumLoop data s = s + wordSum data
  | [], s, _ => by simp [checksumSumLoop, wordSum]
  | [b], s, h => by
      simp only [checksumSumLoop, wordSum] at *
      omega
  | b1 :: b2 :: rest, s, h => by
      simp only [checksumSumLoop, wordSum] at *
      have hlt : (s + (b1 * 256 + b2)) % 4294967296 = s + (b1 * 256 + b2) := by
        apply Nat.mod_eq_of_lt; omega
      rw [hlt, checksumSumLoop_eq rest (s + (b1 * 256 + b2)) (by omega)]
      omega

/-- A one's-complement folded value that is congruent to `0 mod 65535`, comes
from a nonzero sum, and is below `2^16` must be exactly `0xFFFF`. -/
theorem checksumFold_of_congr_zero (x : Nat) (hx : x ≠ 0) (hmod : x % 65535 = 0) :
    checksumFold x = 65535 := by
  have h1 := checksumFold_lt x
  have h2 := checksumFold_mod x
  have h3 : checksumFold x = 0 → x = 0 := checksumFold_eq_zero x
  omega

/-! ### Normal forms of `encode` -/

/-- For an IPv4 request the encoded buffer is the 8-byte header with the
computed checksum spliced into bytes 2 and 3, followed by the payload. -/
theorem icmp_encode_v4_eq (id seq : Nat) (payload : List Nat) :
    IcmpPacket.encode (IcmpPacket.new_request false id seq payload)
      = [8, 0, calculate_checksum ([8, 0, 0, 0, id / 256, id % 256, seq / 256, seq % 256] ++ payload) / 256,
         calculate_checksum ([8, 0, 0, 0, id / 256, id % 256, seq / 256, seq % 256] ++ payload) % 256,
         id / 256, id % 256, seq / 256, seq % 256] ++ payload := by
  simp [IcmpPacket.encode, IcmpPacket.new_request, IcmpType.echoRequest, List.set]

/-- For an IPv6 request the encoded buffer is the raw header (checksum bytes
still zero) followed by the payload. -/
theorem icmp_encode_v6_eq (id seq : Nat) (payload : List Nat) :
    IcmpPacket.encode (IcmpPacket.new_request true id seq payload)
      = [128, 0, 0, 0, id / 256, id % 256, seq / 256, seq % 256] ++ payload := by
  simp [IcmpPacket.encode, IcmpPacket.new_request, IcmpType.echoRequestV6, IcmpType.echoRequest]

/-- The all-zero payloads the pingers build contribute nothing to the word sum. -/
theorem wordSum_replicate_zero : ∀ n, wordSum (List.replicate n 0) = 0
  | 0 => rfl
  | 1 => rfl
  | n + 2 => by
      rw [List.replicate_succ, List.replicate_succ, wordSum, wordSum_replicate_zero n]

/-! ### Claim theorems: packet codec -/

/-- Claim C2: for every identifier, sequence, payload, and address family,
encoding an ICMP Echo request with `IcmpPacket::new_request` followed by
`IcmpPacket::decode` of the encoded bytes succeeds and yields a packet with
the same identifier, the same sequence, and the same payload. -/
theorem icmp_encode_decode_roundtrip (v6 : Bool) (id seq : Nat) (payload : List Nat) :
    ∃ q, IcmpPacket.decode (IcmpPacket.encode (IcmpPacket.new_request v6 id seq payload))
          = Except.ok q
      ∧ q.identifier = id ∧ q.sequence = seq ∧ q.payload = payload := by
  cases v6 with
  | false =>
      rw [icmp_encode_v4_eq, IcmpPacket.decode]
      rw [if_neg (by simp)]
      refine ⟨_, rfl, ?_, ?_, ?_⟩
      · simp [List.getD]; omega
      · simp [List.getD]; omega
      · simp
  | true =>
      rw [icmp_encode_v6_eq, IcmpPacket.decode]
      rw [if_neg (by simp)]
      refine ⟨_, rfl, ?_, ?_, ?_⟩
      · simp [List.getD]; omega
      · simp [List.getD]; omega
      · simp

/-- Claim C3: every IPv4 Echo request produced by `encode` sums (in
one's-complement 16-bit arithmetic, checksum field included, odd trailing
byte zero-padded) to `0xFFFF`, both for an arbitrary payload whose plain
word sum keeps the source's wrapping `u32` accumulator below `2^32` — true
of every packet this program can emit, and of anything small enough to be an
IP datagram — and unconditionally for the all-zero payloads the pingers
build; for every IPv6 Echo request the checksum bytes of the encoding are
zero. -/
theorem icmp_encode_checksum_property (id seq : Nat) (payload : List Nat)
    (hid : id < 65536) (hseq : seq < 65536) :
    (2048 + id + seq + wordSum payload < 4294967296 →
      onesComplementSum (IcmpPacket.encode (IcmpPacket.new_request false id seq payload))
        = 65535)
    ∧ (∀ size : Nat,
        onesComplementSum
            (IcmpPacket.encode (IcmpPacket.new_request false id seq (List.replicate size 0)))
          = 65535)
    ∧ (IcmpPacket.encode (IcmpPacket.new_request true id seq payload)).getD 2 0 = 0
    ∧ (IcmpPacket.encode (IcmpPacket.new_request true id seq payload)).getD 3 0 = 0 := by
  have main : ∀ pl : List Nat, 2048 + id + seq + wordSum pl < 4294967296 →
      onesComplementSum (IcmpPacket.encode (IcmpPacket.new_request false id seq pl))
        = 65535 := by
    intro pl hov
    rw [icmp_encode_v4_eq]
    set buf : List Nat := [8, 0, 0, 0, id / 256, id % 256, seq / 256, seq % 256] ++ pl
      with hbufdef
    have hW : wordSum buf = 2048 + id + seq + wordSum pl := by
      rw [hbufdef]
      simp [wordSum]
      omega
    have hsum : checksumSumLoop buf 0 = wordSum buf := by
      have h := checksumSumLoop_eq buf 0 (by omega)
      simpa using h
    have hflt := checksumFold_lt (wordSum buf)
    have hc_val : calculate_checksum buf = 65535 - checksumFold (wordSum buf) := by
      rw [calculate_checksum, hsum]
      omega
    have hfle := checksumFold_le (wordSum buf)
    have hfmod := checksumFold_mod (wordSum buf)
    have hWenc : wordSum ([8, 0, calculate_checksum buf / 256, calculate_checksum buf % 256,
        id / 256, id % 256, seq / 256, seq % 256] ++ pl)
          = wordSum buf + calculate_checksum buf := by
      simp [wordSum]
      omega
    rw [onesComplementSum, hWenc]
    apply checksumFold_of_congr_zero
    · omega
    · omega
  refine ⟨main payload, fun size => ?_, ?_, ?_⟩
  · exact main (List.replicate size 0) (by rw [wordSum_replicate_zero]; omega)
  · rw [icmp_encode_v6_eq]; rfl
  · rw [icmp_encode_v6_eq]; rfl

/-- Claim C3 witness: a concrete IPv4 request checks out. -/
theorem icmp_encode_checksum_property_witness :
    onesComplementSum (IcmpPacket.encode (IcmpPacket.new_request false 1 2 [97])) = 65535 :=
  (icmp_encode_checksum_property 1 2 [97] (by decide) (by decide)).1 (by decide)

/-- Claim C9: `IcmpPacket::decode` fails, with the error "Packet too short",
exactly when the input is shorter than 8 bytes; on any input of at least
8 bytes it succeeds and returns the five header fields read big-endian from
the first 8 bytes and the remaining bytes as the payload; and it never
inspects the checksum bytes — overwriting them cannot change whether
decoding succeeds. -/
theorem icmp_decode_error_iff_short (data : List Nat) :
    (IcmpPacket.decode data = Except.error "Packet too short" ↔ data.length < 8)
    ∧ (8 ≤ data.length →
        IcmpPacket.decode data = Except.ok
          { message_type := data.getD 0 0
            code := data.getD 1 0
            checksum := data.getD 2 0 * 256 + data.getD 3 0
            identifier := data.getD 4 0 * 256 + data.getD 5 0
            sequence := data.getD 6 0 * 256 + data.getD 7 0
            payload := data.drop 8 })
    ∧ (∀ x y, (IcmpPacket.decode ((data.set 2 x).set 3 y)).isOk
          = (IcmpPacket.decode data).isOk) := by
  refine ⟨⟨fun h => ?_, fun h => ?_⟩, fun h => ?_, fun x y => ?_⟩
  · by_contra hlen
    rw [IcmpPacket.decode, if_neg hlen] at h
    exact Except.noConfusion h
  · rw [IcmpPacket.decode, if_pos h]
  · rw [IcmpPacket.decode, if_neg (by omega)]
  · rw [IcmpPacket.decode, IcmpPacket.decode]
    simp only [List.length_set]
    by_cases hlen : data.length < 8
    · rw [if_pos hlen, if_pos hlen]
    · rw [if_neg hlen, if_neg hlen]
      rfl

/-- Claim C9 witness: decoding a concrete 9-byte buffer. -/
theorem icmp_decode_error_iff_short_witness :
    IcmpPacket.decode [8, 0, 0, 0, 0, 1, 0, 1, 97]
      = Except.ok { message_type := 8, code := 0, checksum := 0, identifier := 1,
                    sequence := 1, payload := [97] } := by
  have h := (icmp_decode_error_iff_short [8, 0, 0, 0, 0, 1, 0, 1, 97]).2.1 (by decide)
  simpa using h

/-! ### Claim theorems: ICMP echo identifier -/

/-- Claim C4 counterexample: for process id 65535 the code derives echo
identifier `65535 % 65535 = 0`, whereas the process ID reduced modulo `2^16`
is 65535. -/
theorem icmp_pinger_id_counterexample :
    icmpPingerId 65535 = 0 ∧ 65535 % 65536 = 65535
      ∧ icmpPingerId 65535 ≠ 65535 % 65536 := by decide

/-- Claim C4 amended: the ICMP echo identifier equals the process ID reduced
modulo 65535 (`u16::MAX`), not modulo `2^16`. -/
theorem icmp_pinger_id_mod (pid : Nat) : icmpPingerId pid = pid % 65535 := by
  rw [icmpPingerId]
  omega

/-! ### Claim theorems: Happy Eyeballs interleaving -/

/-- Draining only the IPv6 iterator returns its remainder unchanged. -/
theorem interleaveLoop_nil_left : ∀ l : List IpAddr, interleaveLoop l [] = l
  | [] => rfl
  | a :: as => by rw [interleaveLoop, interleaveLoop_nil_left as]

/-- The source's drain loop computes exactly the specification's
zip-then-append-tail description. -/
theorem interleaveLoop_eq_specInterleave :
    ∀ v6s v4s : List IpAddr, interleaveLoop v6s v4s = specInterleave v6s v4s
  | [], v4s => by simp [interleaveLoop, specInterleave]
  | a :: v6s, [] => by
      simp [interleaveLoop_nil_left, specInterleave]
  | a :: v6s, b :: v4s => by
      rw [interleaveLoop, interleaveLoop_eq_specInterleave v6s v4s]
      simp [specInterleave]

/-- Claim C6: `interleave_addrs` partitions its input into the IPv6 and IPv4
sub-lists in original order and alternates them starting with IPv6, appending
any leftover tail; interleaving `[v4a, v6a, v6b]` yields `[v6a, v4a, v6b]`,
and an all-IPv4 list is returned unchanged. -/
theorem interleave_addrs_spec (addrs : List IpAddr) :
    interleave_addrs addrs
        = specInterleave (addrs.filter fun a => a.is_ipv6) (addrs.filter fun a => !a.is_ipv6)
    ∧ (∀ x y z : Nat, interleave_addrs [IpAddr.v4 x, IpAddr.v6 y, IpAddr.v6 z]
        = [IpAddr.v6 y, IpAddr.v4 x, IpAddr.v6 z])
    ∧ ((∀ a ∈ addrs, a.is_ipv6 = false) → interleave_addrs addrs = addrs) := by
  refine ⟨interleaveLoop_eq_specInterleave _ _, fun x y z => rfl, fun h => ?_⟩
  have h6 : addrs.filter (fun a => a.is_ipv6) = [] := by
    rw [List.filter_eq_nil_iff]
    intro a ha
    simp [h a ha]
  have h4 : addrs.filter (fun a => !a.is_ipv6) = addrs := by
    rw [List.filter_eq_self]
    intro a ha
    simp [h a ha]
  rw [interleave_addrs, h6, h4, interleaveLoop]

/-- Claim C6 witness: a concrete all-IPv4 list passes through unchanged. -/
theorem interleave_addrs_spec_witness :
    interleave_addrs [IpAddr.v4 1, IpAddr.v4 2, IpAddr.v4 3]
      = [IpAddr.v4 1, IpAddr.v4 2, IpAddr.v4 3] :=
  (interleave_addrs_spec [IpAddr.v4 1, IpAddr.v4 2, IpAddr.v4 3]).2.2 (by decide)

/-! ### Claim theorems: per-target statistics -/

/-- `update` always increments `transmitted` by one. -/
theorem ping_stats_update_transmitted (s : PingStats) (r : PingResult) :
    (PingStats.update s r).transmitted = s.transmitted + 1 := by
  rw [PingStats.update]
  cases r.status <;> rfl

/-- On a `Success` result `update` increments `received` and appends the RTT. -/
theorem ping_stats_update_success (s : PingStats) (r : PingResult)
    (h : r.status = ProbeStatus.success) :
    (PingStats.update s r).received = s.received + 1
    ∧ (PingStats.update s r).rtts = s.rtts ++ [r.rtt] := by
  rw [PingStats.update, h]
  exact ⟨rfl, rfl⟩

/-- On a non-`Success` result `update` leaves `received` and the samples alone. -/
theorem ping_stats_update_other (s : PingStats) (r : PingResult)
    (h : r.status ≠ ProbeStatus.success) :
    (PingStats.update s r).received = s.received
    ∧ (PingStats.update s r).rtts = s.rtts := by
  rw [PingStats.update]
  cases hs : r.status
  · exact absurd hs h
  · exact ⟨rfl, rfl⟩
  · exact ⟨rfl, rfl⟩

/-- The statistics invariants are preserved by any run of updates. -/
theorem ping_stats_foldl_inv :
    ∀ (rs : List PingResult) (s : PingStats),
      s.received ≤ s.transmitted → s.rtts.length = s.received →
      (rs.foldl PingStats.update s).received ≤ (rs.foldl PingStats.update s).transmitted
      ∧ (rs.foldl PingStats.update s).rtts.length = (rs.foldl PingStats.update s).received
  | [], _, h1, h2 => ⟨h1, h2⟩
  | r :: rs, s, h1, h2 => by
      rw [List.foldl_cons]
      apply ping_stats_foldl_inv
      · have ht := ping_stats_update_transmitted s r
        by_cases hs : r.status = ProbeStatus.success
        · have := ping_stats_update_success s r hs
          omega
        · have := ping_stats_update_other s r hs
          omega
      · by_cases hs : r.status = ProbeStatus.success
        · have := ping_stats_update_success s r hs
          rw [this.1, this.2]
          simp [h2]
        · have := ping_stats_update_other s r hs
          rw [this.1, this.2, h2]

/-- Claim C7: starting from a fresh per-target record, `transmitted` is
incremented on every result and `received`/the RTT samples only on `Success`,
so after any sequence of updates `received ≤ transmitted` and the number of
stored RTT samples equals `received`. -/
theorem ping_stats_invariant (results : List PingResult) (t : String) (a : IpAddr)
    (now : Nat) :
    ((results.foldl PingStats.update (PingStats.new t a now)).received
        ≤ (results.foldl PingStats.update (PingStats.new t a now)).transmitted)
    ∧ (results.foldl PingStats.update (PingStats.new t a now)).rtts.length
        = (results.foldl PingStats.update (PingStats.new t a now)).received
    ∧ (∀ s r, (PingStats.update s r).transmitted = s.transmitted + 1)
    ∧ (∀ s r, r.status = ProbeStatus.success →
        (PingStats.update s r).received = s.received + 1
        ∧ (PingStats.update s r).rtts = s.rtts ++ [r.rtt])
    ∧ (∀ s r, r.status ≠ ProbeStatus.success →
        (PingStats.update s r).received = s.received
        ∧ (PingStats.update s r).rtts = s.rtts) := by
  have hinv := ping_stats_foldl_inv results (PingStats.new t a now)
    (by rw [PingStats.new]) (by rw [PingStats.new]; rfl)
  exact ⟨hinv.1, hinv.2, ping_stats_update_transmitted, ping_stats_update_success,
    ping_stats_update_other⟩

/-- Claim C7 witness: one success and one timeout applied to a fresh record. -/
theorem ping_stats_invariant_witness :
    (PingStats.update
        { target := "t", address := IpAddr.v4 0, transmitted := 0, received := 0,
          start_time := 0, rtts := [] }
        { target := "t", target_addr := IpAddr.v4 0, seq := 1, bytes := 56,
          ttl := some 64, rtt := 3, status := ProbeStatus.success }).received = 0 + 1 :=
  ((ping_stats_invariant [] "t" (IpAddr.v4 0) 0).2.2.2.1
    { target := "t", address := IpAddr.v4 0, transmitted := 0, received := 0,
      start_time := 0, rtts := [] }
    { target := "t", target_addr := IpAddr.v4 0, seq := 1, bytes := 56,
      ttl := some 64, rtt := 3, status := ProbeStatus.success } rfl).1

/-! ### Claim theorems: the `ping(seq)` trace -/

/-- Every `ping` trace starts by registering the probe token and only then
hands the encoded request — built for `(id, seq % 2^16)` with an all-zero
payload — to `send_to`. -/
theorem pingModel_shape (p : IcmpPinger) (env : PingEnv) (seq : Nat) :
    ∃ rest, pingModel p env seq
      = PingEvent.register (probeToken p env.dgram seq)
        :: PingEvent.sendPacket
             (IcmpPacket.encode (IcmpPacket.new_request p.target.is_ipv6 p.id (seq % 65536)
               (List.replicate p.size 0)))
        :: rest := by
  rw [pingModel, probeToken]
  cases hse : env.sendErr with
  | some e => exact ⟨_, rfl⟩
  | none =>
      cases hw : env.waiter with
      | reply ts ttl =>
          dsimp only
          by_cases hin : ts ≤ env.sendRetT + p.timeout
          · rw [if_pos hin]; exact ⟨_, rfl⟩
          · rw [if_neg hin]; exact ⟨_, rfl⟩
      | closed t =>
          dsimp only
          by_cases hin : t ≤ env.sendRetT + p.timeout
          · rw [if_pos hin]; exact ⟨_, rfl⟩
          · rw [if_neg hin]; exact ⟨_, rfl⟩
      | silent => exact ⟨_, rfl⟩

/-- A register / send / unregister / emit trace leaves the dispatch table
exactly as it found it. -/
theorem applyTrace_unregister_paths (tok : ReplyToken) (enc : List Nat) (r : PingResult)
    (m : List ReplyToken) :
    applyTrace m [PingEvent.register tok, PingEvent.sendPacket enc,
      PingEvent.unregister tok, PingEvent.emit r] = m := by
  simp [applyTrace, applyEvent, List.erase_cons_head]

/-- Claim C1 amended: for every ICMP probe that receives a matching reply, the
RTT in the Success result equals the receive instant minus the instant
captured immediately **after** the send completes (`Instant::now()` at
icmp/pinger.rs line 92, taken once `send_to(...).await` has returned — not
before the send syscall), saturating at zero, and this RTT is at most the
per-probe timeout. -/
theorem icmp_ping_success_rtt (p : IcmpPinger) (env : PingEnv) (seq ts : Nat)
    (ttl : Option Nat) (hsend : env.sendErr = none)
    (hw : env.waiter = WaiterOutcome.reply ts ttl)
    (hin : ts ≤ env.sendRetT + p.timeout) :
    emitted (pingModel p env seq)
      = [{ target := p.target_name, target_addr := p.target, seq := seq,
           bytes := p.size, ttl := ttl, rtt := ts - env.sendRetT,
           status := ProbeStatus.success }]
    ∧ ts - env.sendRetT ≤ p.timeout := by
  constructor
  · rw [pingModel, hsend, hw]
    dsimp only
    rw [if_pos hin]
    rfl
  · omega

/-- Claim C1 amended, witness: a concrete successful probe (send returns at
instant 5, reply timestamped at instant 7, timeout 10). -/
theorem icmp_ping_success_rtt_witness :
    emitted (pingModel
        { target_name := "t", target := IpAddr.v4 0, id := 1, size := 0, timeout := 10 }
        { dgram := true, sendErr := none, sendCallT := 0, sendRetT := 5,
          waiter := WaiterOutcome.reply 7 none } 1)
      = [{ target := "t", target_addr := IpAddr.v4 0, seq := 1, bytes := 0, ttl := none,
           rtt := 7 - 5, status := ProbeStatus.success }]
    ∧ 7 - 5 ≤ 10 :=
  icmp_ping_success_rtt
    { target_name := "t", target := IpAddr.v4 0, id := 1, size := 0, timeout := 10 }
    { dgram := true, sendErr := none, sendCallT := 0, sendRetT := 5,
      waiter := WaiterOutcome.reply 7 none } 1 7 none rfl rfl (by decide)

/-- Claim C1 counterexample: the pre-send-instant reading of the claim fails.
In a run where the send syscall is entered at instant 0 (`sendCallT`), the
send completes at instant 5, and the matching reply is timestamped at
instant 7, the code reports RTT 2 (= 7 − 5); receive-instant minus the
pre-send instant would be 7 (= 7 − 0). -/
theorem icmp_ping_rtt_pre_send_counterexample :
    emitted (pingModel
        { target_name := "t", target := IpAddr.v4 0, id := 1, size := 0, timeout := 10 }
        { dgram := true, sendErr := none, sendCallT := 0, sendRetT := 5,
          waiter := WaiterOutcome.reply 7 none } 1)
      = [{ target := "t", target_addr := IpAddr.v4 0, seq := 1, bytes := 0, ttl := none,
           rtt := 2, status := ProbeStatus.success }]
    ∧ (2 : Nat) ≠ 7 -
        ({ dgram := true, sendErr := none, sendCallT := 0, sendRetT := 5,
           waiter := WaiterOutcome.reply 7 none } : PingEnv).sendCallT := by
  decide

/-- Claim C8: in every `ping(seq)` call the waiter is registered in the
dispatch table before the packet send is initiated (the trace begins
`register` then `sendPacket`), and when the send fails or the per-probe
timeout expires the entry for that probe identity is explicitly removed,
so on those paths the table ends exactly as it started — the entry does not
outlive the probe. -/
theorem icmp_ping_table_discipline (p : IcmpPinger) (env : PingEnv) (seq : Nat) :
    (∃ rest, pingModel p env seq
        = PingEvent.register (probeToken p env.dgram seq)
          :: PingEvent.sendPacket
               (IcmpPacket.encode (IcmpPacket.new_request p.target.is_ipv6 p.id (seq % 65536)
                 (List.replicate p.size 0)))
          :: rest)
    ∧ ((env.sendErr ≠ none ∨ ∃ r ∈ emitted (pingModel p env seq), r.status = ProbeStatus.timeout) →
        PingEvent.unregister (probeToken p env.dgram seq) ∈ pingModel p env seq
        ∧ ∀ m, applyTrace m (pingModel p env seq) = m) := by
  refine ⟨pingModel_shape p env seq, fun h => ?_⟩
  rw [pingModel, probeToken] at *
  cases hse : env.sendErr with
  | some e =>
      exact ⟨by simp, fun m => applyTrace_unregister_paths _ _ _ m⟩
  | none =>
      rw [hse] at h
      cases hw : env.waiter with
      | reply ts ttl =>
          rw [hw] at h
          dsimp only at h ⊢
          by_cases hin : ts ≤ env.sendRetT + p.timeout
          · rw [if_pos hin] at h ⊢
            rcases h with h | ⟨r, hr, hst⟩
            · exact absurd rfl h
            · simp [emitted] at hr
              rw [hr] at hst
              exact absurd hst (by simp)
          · rw [if_neg hin] at h ⊢
            exact ⟨by simp, fun m => applyTrace_unregister_paths _ _ _ m⟩
      | closed t =>
          rw [hw] at h
          dsimp only at h ⊢
          by_cases hin : t ≤ env.sendRetT + p.timeout
          · rw [if_pos hin] at h ⊢
            rcases h with h | ⟨r, hr, hst⟩
            · exact absurd rfl h
            · simp [emitted] at hr
              rw [hr] at hst
              exact absurd hst (by simp)
          · rw [if_neg hin] at h ⊢
            exact ⟨by simp, fun m => applyTrace_unregister_paths _ _ _ m⟩
      | silent =>
          exact ⟨by simp, fun m => applyTrace_unregister_paths _ _ _ m⟩

/-- Claim C8 witness: a probe whose send fails removes its entry and the
table (started empty) ends empty. -/
theorem icmp_ping_table_discipline_witness :
    PingEvent.unregister (probeToken
        { target_name := "t", target := IpAddr.v4 0, id := 1, size := 0, timeout := 10 } true 0)
      ∈ pingModel
          { target_name := "t", target := IpAddr.v4 0, id := 1, size := 0, timeout := 10 }
          { dgram := true, sendErr := some "eperm", sendCallT := 0, sendRetT := 0,
            waiter := WaiterOutcome.silent } 0
    ∧ applyTrace []
        (pingModel
          { target_name := "t", target := IpAddr.v4 0, id := 1, size := 0, timeout := 10 }
          { dgram := true, sendErr := some "eperm", sendCallT := 0, sendRetT := 0,
            waiter := WaiterOutcome.silent } 0) = [] := by
  have h := (icmp_ping_table_discipline
      { target_name := "t", target := IpAddr.v4 0, id := 1, size := 0, timeout := 10 }
      { dgram := true, sendErr := some "eperm", sendCallT := 0, sendRetT := 0,
        waiter := WaiterOutcome.silent } 0).2 (Or.inl (by decide))
  exact ⟨h.1, h.2 []⟩

/-- On every path of `ping(seq)` the result sent on the sink carries the full
64-bit sequence number. -/
theorem emitted_seq_all (p : IcmpPinger) (env : PingEnv) (seq : Nat) :
    ∀ r ∈ emitted (pingModel p env seq), r.seq = seq := by
  intro r hr
  rw [pingModel] at hr
  cases hse : env.sendErr with
  | some e =>
      rw [hse] at hr
      simp [emitted] at hr
      rw [hr]
  | none =>
      rw [hse] at hr
      cases hw : env.waiter with
      | reply ts ttl =>
          rw [hw] at hr
          dsimp only at hr
          by_cases hin : ts ≤ env.sendRetT + p.timeout
          · rw [if_pos hin] at hr
            simp [emitted] at hr
            rw [hr]
          · rw [if_neg hin] at hr
            simp [emitted] at hr
            rw [hr]
      | closed t =>
          rw [hw] at hr
          dsimp only at hr
          by_cases hin : t ≤ env.sendRetT + p.timeout
          · rw [if_pos hin] at hr
            simp [emitted] at hr
            rw [hr]
          · rw [if_neg hin] at hr
            simp [emitted] at hr
            rw [hr]
      | silent =>
          rw [hw] at hr
          dsimp only at hr
          simp [emitted] at hr
          rw [hr]

/-- Claim C10: the sequence placed in the on-wire packet (bytes 6-7 of the
encoding, big-endian) and in the dispatch-table key is `seq % 2^16`, so two
probes to the same peer whose sequence numbers are congruent mod `2^16` share
the same probe identity, while the result emitted on the sink carries the
full 64-bit `seq`. -/
theorem icmp_ping_seq_view (p : IcmpPinger) (env : PingEnv) (seq : Nat) :
    (∃ rest, pingModel p env seq
        = PingEvent.register (probeToken p env.dgram seq)
          :: PingEvent.sendPacket
               (IcmpPacket.encode (IcmpPacket.new_request p.target.is_ipv6 p.id (seq % 65536)
                 (List.replicate p.size 0)))
          :: rest)
    ∧ ((IcmpPacket.encode (IcmpPacket.new_request p.target.is_ipv6 p.id (seq % 65536)
          (List.replicate p.size 0))).getD 6 0 * 256
        + (IcmpPacket.encode (IcmpPacket.new_request p.target.is_ipv6 p.id (seq % 65536)
            (List.replicate p.size 0))).getD 7 0 = seq % 65536)
    ∧ (probeToken p env.dgram seq).seq = seq % 65536
    ∧ (∀ r ∈ emitted (pingModel p env seq), r.seq = seq)
    ∧ (∀ seq' : Nat, seq % 65536 = seq' % 65536 →
        probeToken p env.dgram seq = probeToken p env.dgram seq') := by
  refine ⟨pingModel_shape p env seq, ?_, rfl, emitted_seq_all p env seq, fun seq' h => ?_⟩
  · cases htgt : p.target with
    | v4 a =>
        simp only [IpAddr.is_ipv6]
        rw [icmp_encode_v4_eq]
        simp [List.getD]
        omega
    | v6 a =>
        simp only [IpAddr.is_ipv6]
        rw [icmp_encode_v6_eq]
        simp [List.getD]
        omega
  · simp [probeToken, h]

/-- Claim C10 witness: sequences 65537 and 1 yield the same probe identity. -/
theorem icmp_ping_seq_view_witness :
    probeToken { target_name := "t", target := IpAddr.v4 0, id := 9, size := 0, timeout := 10 }
        true 65537
      = probeToken { target_name := "t", target := IpAddr.v4 0, id := 9, size := 0, timeout := 10 }
        true 1 :=
  (icmp_ping_seq_view
      { target_name := "t", target := IpAddr.v4 0, id := 9, size := 0, timeout := 10 }
      { dgram := true, sendErr := none, sendCallT := 0, sendRetT := 0,
        waiter := WaiterOutcome.silent } 65537).2.2.2.2 1 (by decide)

/-! ### Claim theorems: summary rendering -/

/-- Claim C5 counterexample: the summary block printed for target `x` with
3 probes sent, 3 received, in 42 ms, is a centered `=== x ping statistics ===`
header followed by a 3×3 key/value table; no line of the block is the
`--- x ping statistics ---` header the claim describes (nor, visibly, a
`N transmitted, M received, ...` counts line). -/
theorem render_table_counterexample :
    render_table "x"
        (prepare_table_data 3 3 42 "0 %" "0.100 ms" "0.300 ms" "0.200 ms" "0.050 ms" "0.080 ms")
        [5, 4, 7] [3, 8, 5]
      = ["",
         "        === x ping statistics ===",
         "send:   3 | min: 0.100 ms |   time: 42 ms",
         "recv:   3 | max: 0.300 ms | jitter: 0.080 ms",
         "loss: 0 % | avg: 0.200 ms |   mdev: 0.050 ms"]
    ∧ specSummaryHeader "x" = "--- x ping statistics ---"
    ∧ specSummaryHeader "x" ∉ render_table "x"
        (prepare_table_data 3 3 42 "0 %" "0.100 ms" "0.300 ms" "0.200 ms" "0.050 ms" "0.080 ms")
        [5, 4, 7] [3, 8, 5] := by
  decide

/-- Claim C5 amended: after session termination the per-target summary block
is a blank line, a centered header whose text is
`=== <target> ping statistics ===`, and three aligned table rows whose
labelled cells are `send:`/`min:`/`time:` (transmitted count, minimum RTT,
elapsed milliseconds), `recv:`/`max:`/`jitter:` (received count, maximum RTT,
jitter), and `loss:`/`avg:`/`mdev:` (loss percentage, mean RTT, mean absolute
deviation); there is no `N transmitted, M received, ...` counts line and no
`rtt min/avg/max/mdev = ...` line. -/
theorem render_table_shape (target : String) (transmitted received total_time : Nat)
    (lossS minS maxS avgS mdevS jitterS : String) (kws vws : List Nat) :
    ∃ pad : Nat,
      render_table target
          (prepare_table_data transmitted received total_time lossS minS maxS avgS mdevS jitterS)
          kws vws
        = ["",
           String.mk (List.replicate pad ' ') ++ ("=== " ++ target ++ " ping statistics ==="),
           rowLine [{ key := "send:", val := toString transmitted },
                    { key := "min:", val := minS },
                    { key := "time:", val := toString total_time ++ " ms" }] kws vws,
           rowLine [{ key := "recv:", val := toString received },
                    { key := "max:", val := maxS },
                    { key := "jitter:", val := jitterS }] kws vws,
           rowLine [{ key := "loss:", val := lossS },
                    { key := "avg:", val := avgS },
                    { key := "mdev:", val := mdevS }] kws vws] := by
  exact ⟨_, rfl⟩
